import Mathlib

/-!
Verification of the RAWG games data pipeline (bronze/silver Delta Lake layers).

Shallow embedding of the repository's core logic:
* `src/ingestor.py`  — pagination loop, record normalization, idempotent
  partitioned bronze write (`GameDataIngestor.get_games_incremental`), and the
  full-load genres write (`GameDataIngestor.get_genres_full`);
* `src/transformer.py` — bronze→silver dedup, genre parsing, explode/groupby
  aggregation (`GameTransformer.process`, `extract_genre_names`);
* `src/config.py` / `src/connectors.py` — configuration validation and client
  construction.

Python values that can sit in a DataFrame cell are modelled by `PyVal`
(JSON-like: null, string, integer, boolean, list, mapping).  Machine floats do
not occur in the verified claims except as exact small rationals, modelled by
`ℚ`.  The pandas DataFrame is modelled columnwise (`List PyVal` per column)
where the code operates columnwise, and rowwise where it operates rowwise.
-/

/-- A Python/JSON-like value as it appears in an API record or DataFrame cell.
`none` models Python `None` (and the NaN produced by pandas for a missing
cell).  Numbers are integers: the claims under verification exercise no float
payloads inside serialized structures. -/
inductive PyVal where
  | none : PyVal
  | str : String → PyVal
  | int : Int → PyVal
  | bool : Bool → PyVal
  | list : List PyVal → PyVal
  | dict : List (String × PyVal) → PyVal

open PyVal in
/-- Left brace character (written via its code point). -/
def lbrace : Char := Char.ofNat 123

/-- Right brace character (written via its code point). -/
def rbrace : Char := Char.ofNat 125

/-- Rendering style: Python `json.dumps` (double quotes, `null`/`true`/`false`)
versus Python `str`/`repr` (single quotes, `None`/`True`/`False`). -/
structure RenderStyle where
  quote : Char
  nullLit : String
  trueLit : String
  falseLit : String

/-- `json.dumps` style. -/
def jsonStyle : RenderStyle := ⟨'"', "null", "true", "false"⟩

/-- Python `repr` style (used by pandas `astype(str)` on container cells). -/
def pythonReprStyle : RenderStyle := ⟨'\'', "None", "True", "False"⟩

mutual
/-- Render a `PyVal` in the given style.  With `jsonStyle` this is Python's
`json.dumps(x)` with its default separators `", "` and `": "`. -/
def renderVal (st : RenderStyle) : PyVal → String
  | PyVal.none => st.nullLit
  | PyVal.str s => String.singleton st.quote ++ s ++ String.singleton st.quote
  | PyVal.int n => toString n
  | PyVal.bool b => if b then st.trueLit else st.falseLit
  | PyVal.list xs => "[" ++ renderList st xs ++ "]"
  | PyVal.dict kvs => String.singleton lbrace ++ renderDict st kvs ++ String.singleton rbrace

/-- Render list elements separated by `", "`. -/
def renderList (st : RenderStyle) : List PyVal → String
  | [] => ""
  | [x] => renderVal st x
  | x :: y :: xs => renderVal st x ++ ", " ++ renderList st (y :: xs)

/-- Render dict entries `"key": value` separated by `", "`. -/
def renderDict (st : RenderStyle) : List (String × PyVal) → String
  | [] => ""
  | [kv] => renderEntry st kv
  | kv :: kv2 :: kvs => renderEntry st kv ++ ", " ++ renderDict st (kv2 :: kvs)

/-- Render one dict entry. -/
def renderEntry (st : RenderStyle) : String × PyVal → String
  | (k, v) => String.singleton st.quote ++ k ++ String.singleton st.quote ++ ": " ++ renderVal st v
end

/-- Python `json.dumps` with default options. -/
def dumps (v : PyVal) : String := renderVal jsonStyle v

/-- Python `str(x)` on a cell value (what pandas `astype(str)` applies):
`str(None) = "None"`, booleans capitalized, containers via `repr`. -/
def pyStr : PyVal → String
  | PyVal.none => "None"
  | PyVal.str s => s
  | PyVal.int n => toString n
  | PyVal.bool b => if b then "True" else "False"
  | PyVal.list xs => renderVal pythonReprStyle (PyVal.list xs)
  | PyVal.dict kvs => renderVal pythonReprStyle (PyVal.dict kvs)

/-! ### A small executable model of `json.loads`

Recursive-descent parser over the character list, with fuel for termination.
It accepts the JSON fragment the pipeline round-trips (null, booleans, integer
numbers, strings with the standard escapes, arrays, objects); float literals
are outside the modelled fragment and make the parse fail (the transformer's
caller treats any parse failure as an empty genre list, so this is the
conservative direction). -/

/-- Skip JSON whitespace. -/
def skipWs : List Char → List Char
  | c :: cs => if c = ' ' ∨ c = '\t' ∨ c = '\n' ∨ c = '\r' then skipWs cs else c :: cs
  | [] => []

/-- Parse the body of a JSON string after the opening quote; returns the
string and the rest of the input after the closing quote. -/
def parseStringBody : List Char → Option (String × List Char)
  | [] => Option.none
  | c :: cs =>
    if c = '"' then some ("", cs)
    else if c = '\\' then
      match cs with
      | [] => Option.none
      | e :: cs2 =>
        let esc : Option Char :=
          if e = '"' then some '"'
          else if e = '\\' then some '\\'
          else if e = '/' then some '/'
          else if e = 'n' then some '\n'
          else if e = 't' then some '\t'
          else if e = 'r' then some '\r'
          else if e = 'b' then some (Char.ofNat 8)
          else if e = 'f' then some (Char.ofNat 12)
          else Option.none
        match esc with
        | some ch =>
          match parseStringBody cs2 with
          | some (s, rest) => some (String.singleton ch ++ s, rest)
          | Option.none => Option.none
        | Option.none => Option.none
    else
      match parseStringBody cs with
      | some (s, rest) => some (String.singleton c ++ s, rest)
      | Option.none => Option.none

/-- Parse a run of decimal digits into a natural number (most significant
first), returning the value and the remaining input. -/
def parseDigits : Nat → List Char → Option (Nat × List Char)
  | acc, c :: cs =>
    if c.isDigit then parseDigits (acc * 10 + (c.toNat - 48)) cs
    else some (acc, c :: cs)
  | acc, [] => some (acc, [])

mutual
/-- Parse one JSON value. -/
def parseVal : Nat → List Char → Option (PyVal × List Char)
  | 0, _ => Option.none
  | fuel + 1, input =>
    match skipWs input with
    | [] => Option.none
    | c :: cs =>
      if c = '"' then
        match parseStringBody cs with
        | some (s, rest) => some (PyVal.str s, rest)
        | Option.none => Option.none
      else if c = '[' then
        match skipWs cs with
        | ']' :: rest => some (PyVal.list [], rest)
        | cs2 => match parseArrayItems fuel cs2 with
          | some (xs, rest) => some (PyVal.list xs, rest)
          | Option.none => Option.none
      else if c = lbrace then
        match skipWs cs with
        | d :: rest =>
          if d = rbrace then some (PyVal.dict [], rest)
          else match parseObjectItems fuel (d :: rest) with
            | some (kvs, rest2) => some (PyVal.dict kvs, rest2)
            | Option.none => Option.none
        | [] => Option.none
      else if c = 'n' then
        match cs with
        | 'u' :: 'l' :: 'l' :: rest => some (PyVal.none, rest)
        | _ => Option.none
      else if c = 't' then
        match cs with
        | 'r' :: 'u' :: 'e' :: rest => some (PyVal.bool true, rest)
        | _ => Option.none
      else if c = 'f' then
        match cs with
        | 'a' :: 'l' :: 's' :: 'e' :: rest => some (PyVal.bool false, rest)
        | _ => Option.none
      else if c = '-' then
        match cs with
        | d :: _ =>
          if d.isDigit then
            match parseDigits 0 cs with
            | some (n, rest) => some (PyVal.int (-(n : Int)), rest)
            | Option.none => Option.none
          else Option.none
        | [] => Option.none
      else if c.isDigit then
        match parseDigits 0 (c :: cs) with
        | some (n, rest) => some (PyVal.int (n : Int), rest)
        | Option.none => Option.none
      else Option.none

/-- Parse the comma-separated items of a JSON array (at least one item),
including the closing bracket. -/
def parseArrayItems : Nat → List Char → Option (List PyVal × List Char)
  | 0, _ => Option.none
  | fuel + 1, input =>
    match parseVal fuel input with
    | some (v, rest) =>
      match skipWs rest with
      | ',' :: rest2 =>
        match parseArrayItems fuel rest2 with
        | some (vs, rest3) => some (v :: vs, rest3)
        | Option.none => Option.none
      | ']' :: rest2 => some ([v], rest2)
      | _ => Option.none
    | Option.none => Option.none

/-- Parse the comma-separated entries of a JSON object (at least one entry),
including the closing brace. -/
def parseObjectItems : Nat → List Char → Option (List (String × PyVal) × List Char)
  | 0, _ => Option.none
  | fuel + 1, input =>
    match skipWs input with
    | '"' :: cs =>
      match parseStringBody cs with
      | some (k, rest) =>
        match skipWs rest with
        | ':' :: rest2 =>
          match parseVal fuel rest2 with
          | some (v, rest3) =>
            match skipWs rest3 with
            | ',' :: rest4 =>
              match parseObjectItems fuel rest4 with
              | some (kvs, rest5) => some ((k, v) :: kvs, rest5)
              | Option.none => Option.none
            | d :: rest4 =>
              if d = rbrace then some ([(k, v)], rest4) else Option.none
            | [] => Option.none
          | Option.none => Option.none
        | _ => Option.none
      | Option.none => Option.none
    | _ => Option.none
end

/-- Python `json.loads`, restricted to the fragment above: parse one value and
require only whitespace to remain. -/
def loads (s : String) : Option PyVal :=
  match parseVal (s.length + 1) s.data with
  | some (v, rest) => if skipWs rest = [] then some v else Option.none
  | Option.none => Option.none

/-! ### Record Normalizer (`GameDataIngestor.get_games_incremental`, schema block)

The code walks the DataFrame column by column:
```
for col in df.columns:
    if df[col].isnull().all():
        df[col] = df[col].astype(str); continue
    is_complex = col in complex_cols
    if not is_complex:
        if df[col].apply(lambda x: isinstance(x, (dict, list))).any():
            is_complex = True
    if is_complex:
        df[col] = df[col].apply(safe_serialize)
        df[col] = df[col].astype(str).replace('None', None)
```
A column is a `List PyVal` of cell values. -/

/-- The explicit allow-list of structured columns from the source. -/
def complex_cols : List String :=
  ["platforms", "parent_platforms", "genres", "stores", "tags", "esrb_rating",
   "short_screenshots"]

/-- pandas `isnull` on a cell: Python `None` (the model also makes this stand
for NaN; see `PyVal.none`). -/
def isNullCell : PyVal → Bool
  | PyVal.none => true
  | _ => false

/-- `isinstance(x, (dict, list))`. -/
def isContainerCell : PyVal → Bool
  | PyVal.list _ => true
  | PyVal.dict _ => true
  | _ => false

/-- `safe_serialize` from the source: `None` stays `None`; lists and dicts go
through `json.dumps`; `pd.isna` cells (covered by the `None` case here) stay
null; anything else via `str(x)`.  The numpy `tolist` branch has no separate
model: a numpy array cell is represented as its plain `PyVal.list`. -/
def safe_serialize : PyVal → PyVal
  | PyVal.none => PyVal.none
  | PyVal.list xs => PyVal.str (dumps (PyVal.list xs))
  | PyVal.dict kvs => PyVal.str (dumps (PyVal.dict kvs))
  | v => PyVal.str (pyStr v)

/-- `df[col].astype(str).replace('None', None)` applied to one cell:
`astype(str)` stringifies every cell (`None` becomes the literal `'None'`),
then `replace` turns cells equal to the string `'None'` back into null. -/
def astypeStrReplaceNone (v : PyVal) : PyVal :=
  let s := pyStr v
  if s = "None" then PyVal.none else PyVal.str s

/-- The serialization applied to a structured column:
`apply(safe_serialize)` then `astype(str).replace('None', None)`. -/
def serializeComplexColumn (col : List PyVal) : List PyVal :=
  (col.map safe_serialize).map astypeStrReplaceNone

/-- Outcome of normalizing one column.  `allNullStr` is the `astype(str)`
branch for an all-null column: a string-dtype column (whose cells are the
literal string each null stringifies to).  `serialized` is the structured
branch.  `unchanged` leaves native scalar typing in place. -/
inductive NormalizedColumn where
  | allNullStr : List String → NormalizedColumn
  | serialized : List PyVal → NormalizedColumn
  | unchanged : List PyVal → NormalizedColumn

/-- Column classification: the explicit allow-list first, then the heuristic
scan for container cells. -/
def isComplexCol (name : String) (col : List PyVal) : Bool :=
  complex_cols.contains name || col.any isContainerCell

/-- Normalize one column, in the source's branch order: all-null coercion to
string dtype first, then structured-column serialization, else unchanged. -/
def normalizeColumn (name : String) (col : List PyVal) : NormalizedColumn :=
  if col.all isNullCell then NormalizedColumn.allNullStr (col.map pyStr)
  else if isComplexCol name col then NormalizedColumn.serialized (serializeComplexColumn col)
  else NormalizedColumn.unchanged col

/-- A column is string-typed for the storage layer when every cell is a string
or null (the invariant the normalizer establishes for coerced columns). -/
def NormalizedColumn.isStringTyped : NormalizedColumn → Bool
  | NormalizedColumn.allNullStr _ => true
  | NormalizedColumn.serialized vals =>
      vals.all fun v => match v with
        | PyVal.none => true
        | PyVal.str _ => true
        | _ => false
  | NormalizedColumn.unchanged _ => false

/-! ### Silver Transformer: genre parsing (`extract_genre_names`, `primary_genre`)

```
def extract_genre_names(genre_json_str):
    if not genre_json_str: return []
    try:
        genres = json.loads(genre_json_str)
        if isinstance(genres, list):
            return [g.get('name') for g in genres]
    except: pass
    return []
df['primary_genre'] = df['genre_list'].apply(lambda x: x[0] if x else "Unknown")
```
-/

/-- Python `g.get('name')` on a dict value: the value under the key, or `None`
when absent. -/
def dictGet (k : String) : PyVal → PyVal
  | PyVal.dict kvs =>
    match kvs.find? (fun kv => kv.1 = k) with
    | some kv => kv.2
    | Option.none => PyVal.none
  | _ => PyVal.none

/-- `extract_genre_names` from the source.  The cell is `Option String`
(null or a string); Python falsiness covers null and the empty string.  A
parse failure, a non-list parse, or a non-dict list element (whose
`.get` raises, caught by the bare `except`, discarding the partial
comprehension) all yield `[]`. -/
def extract_genre_names (genre_json_str : Option String) : List PyVal :=
  match genre_json_str with
  | Option.none => []
  | some s =>
    if s.isEmpty then []
    else
      match loads s with
      | some (PyVal.list gs) =>
        if gs.all fun g => match g with | PyVal.dict _ => true | _ => false
        then gs.map (dictGet "name")
        else []
      | _ => []

/-- `primary_genre`: first element of the genre list, else `"Unknown"`. -/
def primary_genre : List PyVal → PyVal
  | [] => PyVal.str "Unknown"
  | g :: _ => g

/-! ### Silver Transformer: daily-history deduplication (`GameTransformer.process`)

```
df.sort_values(by='extraction_date', ascending=True, inplace=True)
df.drop_duplicates(subset=['id', 'extraction_date'], keep='last', inplace=True)
```
A bronze game row is modelled by its dedup key columns (`id`,
`extraction_date`) plus the remaining attribute columns bundled in `attrs`.
`sort_values` here is a single-column sort with the default
`kind='quicksort'`, which pandas does not guarantee to be stable: rows tying
on `extraction_date` may come out in any order.  It is therefore modelled
relationally, as the set of its permitted outputs: any permutation of the
input that is sorted on the key (`sortValuesOutput` below). -/

/-- A bronze game row as seen by the transformer's dedup step. -/
structure BronzeGame where
  id : Int
  extraction_date : String
  attrs : PyVal

/-- The dedup key: `(entity id, extraction_date)`. -/
def dedupKey (r : BronzeGame) : Int × String := (r.id, r.extraction_date)

/-- Lexicographic code-point comparison on character lists: Python's (and
pandas') string ordering. -/
def lexLe : List Char → List Char → Bool
  | [], _ => true
  | _ :: _, [] => false
  | a :: as, b :: bs =>
    if a.toNat < b.toNat then true
    else if b.toNat < a.toNat then false
    else lexLe as bs

/-- Python string `<=`, used by pandas when sorting string columns. -/
def pyStrLe (a b : String) : Bool := lexLe a.data b.data

/-- Ordering used by `sort_values(by='extraction_date', ascending=True)`. -/
def dateLe (a b : BronzeGame) : Prop :=
  pyStrLe a.extraction_date b.extraction_date = true

instance : DecidableRel dateLe := fun a b =>
  inferInstanceAs (Decidable (pyStrLe a.extraction_date b.extraction_date = true))

/-- pandas `drop_duplicates(subset=['id','extraction_date'], keep='last')`:
keep a row iff no later row shares its key, preserving the order of kept
rows. -/
def dropDupKeepLast : List BronzeGame → List BronzeGame
  | [] => []
  | x :: xs =>
    if xs.any (fun y => dedupKey y = dedupKey x) then dropDupKeepLast xs
    else x :: dropDupKeepLast xs

/-- `ys` is a permitted output of
`sort_values(by='extraction_date', ascending=True)` on input `xs`: pandas
guarantees only a permutation of the rows that is ascending on the key — the
default `kind='quicksort'` is not stable, so the relative order of rows tying
on `extraction_date` is implementation-defined.  The dedup stage is
`dropDupKeepLast` applied to such an output. -/
def sortValuesOutput (xs ys : List BronzeGame) : Prop :=
  List.Perm xs ys ∧ List.Sorted dateLe ys

/-! ### Silver Transformer: aggregation (`GameTransformer.process`, steps 6)

```
df_exploded = df.explode('genre_list')
df_exploded.rename(columns={'genre_list': 'genre'}, inplace=True)
df_analytics = df_exploded.dropna(subset=['released_year', 'genre'])
analytics_df = df_analytics.groupby(['released_year', 'genre']).agg(
    avg_rating=('rating', 'mean'), game_count=('id', 'count')).reset_index()
analytics_df.sort_values(by=['released_year', 'game_count'],
                         ascending=[False, False], inplace=True)
analytics_df.reset_index(drop=True, inplace=True)
```
The refined row carries the columns this stage reads: `released_year` (null
when the release date was unparseable), `rating`, `id` and the parsed
`genre_list` (genre name strings; a missing `name` key yields a null entry,
dropped by `dropna` like any other null). -/

/-- A refined (post-DERIVE) row as read by the aggregation stage. -/
structure RefinedRow where
  id : Int
  released_year : Option Int
  rating : ℚ
  genre_list : List (Option String)

/-- One output row of the analytics table. -/
structure AnalyticsRow where
  released_year : Int
  genre : String
  avg_rating : ℚ
  game_count : Nat
deriving DecidableEq

/-- pandas `explode('genre_list')`: one output row per list element; an empty
list yields a single row with a null genre cell. -/
def explodeGenres (r : RefinedRow) : List (RefinedRow × Option String) :=
  match r.genre_list with
  | [] => [(r, Option.none)]
  | gs => gs.map fun g => (r, g)

/-- One surviving observation after `dropna(subset=['released_year','genre'])`:
both the year and the genre resolved. -/
structure GenreObs where
  released_year : Int
  genre : String
  rating : ℚ
  id : Int

/-- `dropna(subset=['released_year', 'genre'])` over the exploded rows,
projected to the columns the aggregation reads. -/
def dropnaObs (ps : List (RefinedRow × Option String)) : List GenreObs :=
  ps.filterMap fun p =>
    match p.1.released_year, p.2 with
    | some y, some g => some ⟨y, g, p.1.rating, p.1.id⟩
    | _, _ => Option.none

/-- Ascending lexicographic order on group keys (pandas `groupby` emits groups
with sorted keys by default). -/
def keyLe (a b : Int × String) : Prop :=
  a.1 < b.1 ∨ (a.1 = b.1 ∧ pyStrLe a.2 b.2 = true)

instance : DecidableRel keyLe := fun a b =>
  inferInstanceAs (Decidable (a.1 < b.1 ∨ (a.1 = b.1 ∧ pyStrLe a.2 b.2 = true)))

/-- The group of observations for one `(released_year, genre)` key. -/
def obsGroup (obs : List GenreObs) (k : Int × String) : List GenreObs :=
  obs.filter fun o => o.released_year = k.1 ∧ o.genre = k.2

/-- `groupby(['released_year','genre']).agg(avg_rating=('rating','mean'),
game_count=('id','count'))`: one row per distinct key (keys sorted
ascending), mean of `rating`, count of (non-null, hence all) `id`s. -/
def groupbyAgg (obs : List GenreObs) : List AnalyticsRow :=
  (List.insertionSort keyLe ((obs.map fun o => (o.released_year, o.genre)).dedup)).map
    fun k =>
      let grp := obsGroup obs k
      ⟨k.1, k.2, (grp.map fun o => o.rating).sum / (grp.length : ℚ), grp.length⟩

/-- `sort_values(by=['released_year','game_count'], ascending=[False,False])`:
year descending, then count descending. -/
def analyticsOrder (a b : AnalyticsRow) : Prop :=
  b.released_year < a.released_year ∨
    (a.released_year = b.released_year ∧ b.game_count ≤ a.game_count)

instance : DecidableRel analyticsOrder := fun a b =>
  inferInstanceAs (Decidable (b.released_year < a.released_year ∨
    (a.released_year = b.released_year ∧ b.game_count ≤ a.game_count)))

instance : IsTotal AnalyticsRow analyticsOrder :=
  ⟨fun a b => by unfold analyticsOrder; omega⟩

instance : IsTrans AnalyticsRow analyticsOrder :=
  ⟨fun a b c hab hbc => by unfold analyticsOrder at hab hbc ⊢; omega⟩

/-- The analytics stage end to end: explode, dropna, groupby-aggregate, sort
(year descending, count descending). -/
def games_analytics (rows : List RefinedRow) : List AnalyticsRow :=
  List.insertionSort analyticsOrder (groupbyAgg (dropnaObs (rows.flatMap explodeGenres)))

/-! ### Paginator and Bronze Writer (`GameDataIngestor.get_games_incremental`)

The Fetcher collaborator (`RawgApiClient.get_resource`) is modelled as an
oracle from page number to outcome: either it raises (`err`) or returns a
response dict, abstracted by its Python truthiness, the contents of its
`"results"` key when present, and the truthiness of `response.get("next")`.
The pagination loop is embedded as one step function (faithful to the loop
body's check order) iterated under fuel (the real loop terminates only
because the remote API exhausts; fuel makes nontermination a visible
`Option.none`, which no claim depends on). -/

/-- An API page response, abstracted to what the loop inspects. -/
structure ApiResponse where
  truthy : Bool
  resultsKey : Option (List PyVal)
  nextTruthy : Bool

/-- Outcome of one `client.get_resource` call. -/
inductive FetchOutcome where
  | err : FetchOutcome
  | ok : ApiResponse → FetchOutcome

/-- The Fetcher oracle: page number to fetch outcome. -/
def Fetcher := Nat → FetchOutcome

/-- Why the pagination loop stopped. -/
inductive StopReason where
  | pageCap : StopReason
  | fetchError : StopReason
  | invalidResponse : StopReason
  | emptyPage : StopReason
  | noNext : StopReason
deriving DecidableEq

/-- `if max_pages and page > max_pages`: Python truthiness of `max_pages`
(`None` and `0` disable the cap), then the comparison. -/
def capReached (max_pages : Option Int) (page : Nat) : Bool :=
  match max_pages with
  | Option.none => false
  | some m => decide (m ≠ 0) && decide ((page : Int) > m)

/-- Result of one loop iteration: stop with the accumulator and a reason, or
go on to the next page with the grown accumulator. -/
inductive StepResult where
  | stop : List PyVal → StopReason → StepResult
  | nextPage : List PyVal → StepResult

/-- One iteration of the pagination loop, in the source's order: page-cap
check, fetch (an exception stops the loop, keeping `all_games`), invalid
response (`not response or "results" not in response`), empty `results`,
`all_games.extend(results)`, then `response.get("next")`. -/
def paginateStep (fetch : Fetcher) (max_pages : Option Int) (page : Nat)
    (acc : List PyVal) : StepResult :=
  if capReached max_pages page then StepResult.stop acc StopReason.pageCap
  else
    match fetch page with
    | FetchOutcome.err => StepResult.stop acc StopReason.fetchError
    | FetchOutcome.ok r =>
      if !r.truthy then StepResult.stop acc StopReason.invalidResponse
      else
        match r.resultsKey with
        | Option.none => StepResult.stop acc StopReason.invalidResponse
        | some results =>
          if results.isEmpty then StepResult.stop acc StopReason.emptyPage
          else if !r.nextTruthy then
            StepResult.stop (acc ++ results) StopReason.noNext
          else StepResult.nextPage (acc ++ results)

/-- The pagination loop from page `page` with accumulator `acc`, under fuel. -/
def paginate (fetch : Fetcher) (max_pages : Option Int) :
    Nat → Nat → List PyVal → Option (List PyVal × StopReason)
  | 0, _, _ => Option.none
  | fuel + 1, page, acc =>
    match paginateStep fetch max_pages page acc with
    | StepResult.stop acc2 reason => some (acc2, reason)
    | StepResult.nextPage acc2 => paginate fetch max_pages fuel (page + 1) acc2

/-- A bronze games row: the audit columns added by the run
(`extraction_ts`, `extraction_date`) plus the fetched record. -/
structure BronzeRow where
  extraction_ts : Nat
  extraction_date : String
  record : PyVal

/-- The bronze games table: `Option.none` when the Delta table does not exist
yet at the save path, else its rows. -/
def BronzeTable := Option (List BronzeRow)

/-- `dt.delete("extraction_date = 'd'")`: drop the partition for `d`. -/
def deletePartition (rows : List BronzeRow) (d : String) : List BronzeRow :=
  rows.filter fun r => r.extraction_date ≠ d

/-- The idempotent write: if the table exists, delete this run's
`extraction_date` partition then append; otherwise create the table from the
batch (the source's first-run fallback). -/
def writeIncremental (table : BronzeTable) (d : String) (batch : List BronzeRow) :
    List BronzeRow :=
  match table with
  | Option.none => batch
  | some rows => deletePartition rows d ++ batch

/-- The batch built from the fetched games: every row carries this run's
`extraction_ts` and `extraction_date` audit columns. -/
def mkBatch (ts : Nat) (d : String) (games : List PyVal) : List BronzeRow :=
  games.map fun g => ⟨ts, d, g⟩

/-- How a completed ingestion run ended: the empty-result condition
(`logger.warning`, no write) or a successful write of `n` rows. -/
inductive IngestOutcome where
  | emptyResult : IngestOutcome
  | written : Nat → IngestOutcome
deriving DecidableEq

/-- The state and signals after one `get_games_incremental` run. -/
structure IngestResult where
  table : BronzeTable
  outcome : IngestOutcome
  stop : StopReason

/-- `get_games_incremental`, end to end: paginate, and either signal the
empty-result condition leaving the table untouched, or add the audit columns
and perform the delete-then-append partitioned write.  `ts` is the run's
wall-clock `datetime.now()` and `today` the calendar day derived from it.
`Option.none` only models fuel exhaustion (a nonterminating loop), never a
code path. -/
def get_games_incremental (fetch : Fetcher) (max_pages : Option Int) (fuel : Nat)
    (ts : Nat) (today : String) (table : BronzeTable) : Option IngestResult :=
  match paginate fetch max_pages fuel 1 [] with
  | Option.none => Option.none
  | some (games, reason) =>
    if games.isEmpty then some ⟨table, IngestOutcome.emptyResult, reason⟩
    else
      some ⟨some (writeIncremental table today (mkBatch ts today games)),
            IngestOutcome.written games.length, reason⟩

/-- The rows of a partition: the table's rows with the given
`extraction_date` (empty when the table does not exist). -/
def partitionRows (table : BronzeTable) (d : String) : List BronzeRow :=
  (Option.getD table []).filter fun r => r.extraction_date = d

/-! ### Full-Load Writer (`GameDataIngestor.get_genres_full`)

```
try: response = self.client.get_resource(endpoint, params={"page_size": 40})
except Exception: return
if not response or "results" not in response: return
df = pd.DataFrame(response["results"])
for col in df.columns:
    if df[col].apply(lambda x: isinstance(x, (dict, list))).any():
        df[col] = df[col].apply(json.dumps)
write_deltalake(save_path, df, mode="overwrite")
```
The frame built from the results is modelled columnwise (name and cells); the
fetch oracle hands it over in that shape. -/

/-- A columnwise DataFrame: column name paired with its cells. -/
def ColFrame := List (String × List PyVal)

/-- Response to the genres fetch, abstracted like `ApiResponse`. -/
structure GenresResponse where
  truthy : Bool
  resultsKey : Option ColFrame

/-- Outcome of the single genres fetch. -/
inductive GenresFetchOutcome where
  | err : GenresFetchOutcome
  | ok : GenresResponse → GenresFetchOutcome

/-- The genres column serialization: if any cell of the column is a dict or a
list, `json.dumps` every cell of that column. -/
def serializeGenresCol (cells : List PyVal) : List PyVal :=
  if cells.any isContainerCell then cells.map fun v => PyVal.str (dumps v)
  else cells

/-- How a `get_genres_full` run ended. -/
inductive GenresOutcome where
  | fetchError : GenresOutcome
  | invalidResponse : GenresOutcome
  | written : GenresOutcome
deriving DecidableEq

/-- `get_genres_full`: an exception or an invalid/`results`-less response
returns before any frame is built or written, leaving the table as it was;
otherwise the serialized frame overwrites the table. -/
def get_genres_full (fetch : GenresFetchOutcome) (table : Option ColFrame) :
    Option ColFrame × GenresOutcome :=
  match fetch with
  | GenresFetchOutcome.err => (table, GenresOutcome.fetchError)
  | GenresFetchOutcome.ok r =>
    if !r.truthy then (table, GenresOutcome.invalidResponse)
    else
      match r.resultsKey with
      | Option.none => (table, GenresOutcome.invalidResponse)
      | some df =>
        (some (df.map fun c => (c.1, serializeGenresCol c.2)), GenresOutcome.written)

/-! ### Configuration (`Config`, `RawgApiClient.__init__`) -/

/-- The configuration surface relevant to the claims: the API key as read
from the environment (`None` when unset). -/
structure Config where
  RAWG_API_KEY : Option String

/-- Python falsiness of an optional string: `None` or the empty string. -/
def pyFalsyStr : Option String → Bool
  | Option.none => true
  | some s => s.isEmpty

/-- `Config.validate`: raise `ValueError` iff the key is falsy. -/
def Config.validate (c : Config) : Except String Unit :=
  if pyFalsyStr c.RAWG_API_KEY then
    Except.error "RAWG_API_KEY is not set in environment or .env file."
  else Except.ok ()

/-- The client state after `RawgApiClient.__init__`, with the warnings the
constructor logged: construction never raises; a missing key only logs
`"RAWG_API_KEY is missing. API calls will likely fail."`. -/
structure RawgApiClient where
  api_key : Option String
  initWarnings : List String

/-- `RawgApiClient.__init__` from the source. -/
def mkRawgApiClient (c : Config) : RawgApiClient :=
  ⟨c.RAWG_API_KEY,
   if pyFalsyStr c.RAWG_API_KEY then ["RAWG_API_KEY is missing. API calls will likely fail."]
   else []⟩

/-- Modelled from the spec: the run orchestrator (the notebook entry point,
which is not under `src/`) validates the configuration before its first use —
"validated for presence before first use, failing fast if the key is absent."
On validation failure it propagates the error before constructing the client
or issuing any API call; otherwise it runs the pipeline body (abstracted as
`body`, returning the number of API calls it issued). -/
def runPipeline (c : Config) (body : RawgApiClient → Nat) : Except String Nat :=
  match c.validate with
  | Except.error e => Except.error e
  | Except.ok _ => Except.ok (body (mkRawgApiClient c))


/-! ### Concrete instances used by the claim statements and witnesses -/

/-- The claim's genres payload: `[{"name": "Action"}, {"name": "RPG"}]`. -/
def rawGenres : PyVal :=
  PyVal.list [PyVal.dict [("name", PyVal.str "Action")],
              PyVal.dict [("name", PyVal.str "RPG")]]

/-- The canonical JSON text of `rawGenres` under `json.dumps`. -/
def genresCanonicalText : String :=
  "[\x7b\"name\": \"Action\"\x7d, \x7b\"name\": \"RPG\"\x7d]"

/-- A concrete genres column: the payload above next to a null cell. -/
def genresColExample : List PyVal := [rawGenres, PyVal.none]

/-- A concrete all-null column. -/
def allNullColExample : List PyVal := [PyVal.none, PyVal.none]

/-- The refined rows of the aggregation claim's example. -/
def c4rows : List RefinedRow :=
  [⟨1, some 2020, 4, [some "Action"]⟩,
   ⟨2, some 2020, 5, [some "Action"]⟩,
   ⟨3, some 2020, 3, [some "RPG"]⟩]

/-- A fetcher serving one page of two records with no next page, failing on
any other page number. -/
def fetchOnePage : Fetcher := fun page =>
  if page = 1 then FetchOutcome.ok ⟨true, some [PyVal.int 10, PyVal.int 11], false⟩
  else FetchOutcome.err

/-- A fetcher that always raises. -/
def fetchAlwaysErr : Fetcher := fun _ => FetchOutcome.err

/-- A fetcher serving one full page (with a next indicator) and then raising
on page 2: exercises mid-pagination failure with accumulated results. -/
def fetchThenErr : Fetcher := fun page =>
  if page = 1 then FetchOutcome.ok ⟨true, some [PyVal.int 10, PyVal.int 11], true⟩
  else FetchOutcome.err

/-- A concrete genres reference frame. -/
def genresFrameExample : ColFrame :=
  [("id", [PyVal.int 4]), ("name", [PyVal.str "Action"])]

/-- Two bronze rows with the same entity id and extraction date but different
attributes (same-day re-fetch duplicates). -/
def dupRowA : BronzeGame := ⟨7, "2024-01-01", PyVal.int 1⟩

/-- See `dupRowA`: the later-appended duplicate. -/
def dupRowB : BronzeGame := ⟨7, "2024-01-01", PyVal.int 2⟩

/-! ### Helper lemmas on the bronze write -/

/-- Every row of a batch carries the run's `extraction_date`. -/
theorem mkBatch_extraction_date (ts : Nat) (d : String) (games : List PyVal) :
    ∀ r ∈ mkBatch ts d games, r.extraction_date = d := by
  intro r hr
  simp only [mkBatch, List.mem_map] at hr
  obtain ⟨g, -, rfl⟩ := hr
  rfl

/-- Deleting the partition a batch entirely lives in empties the batch. -/
theorem deletePartition_self (d : String) (b : List BronzeRow)
    (hb : ∀ r ∈ b, r.extraction_date = d) : deletePartition b d = [] := by
  refine List.filter_eq_nil_iff.mpr fun r hr => ?_
  simp [hb r hr]

/-- Filtering after a partition delete filters by the conjunction. -/
theorem filter_deletePartition (p : BronzeRow → Bool) (rows : List BronzeRow) (d : String) :
    (deletePartition rows d).filter p =
      rows.filter fun r => p r && decide (r.extraction_date ≠ d) := by
  simp [deletePartition, List.filter_filter]

/-- Partition deletion is idempotent. -/
theorem deletePartition_idem (rows : List BronzeRow) (d : String) :
    deletePartition (deletePartition rows d) d = deletePartition rows d := by
  rw [show deletePartition (deletePartition rows d) d
      = (deletePartition rows d).filter (fun r => decide (r.extraction_date ≠ d)) from rfl]
  rw [filter_deletePartition]
  simp [deletePartition]

/-- Writing a same-day batch over a table that already received a same-day
batch is the same as writing it over the original table: the delete step
removes exactly the earlier same-day rows. -/
theorem writeIncremental_replaces (t : BronzeTable) (d : String)
    (b1 b2 : List BronzeRow) (hb1 : ∀ r ∈ b1, r.extraction_date = d) :
    writeIncremental (some (writeIncremental t d b1)) d b2 =
      writeIncremental t d b2 := by
  have hnil : deletePartition b1 d = [] := deletePartition_self d b1 hb1
  cases t with
  | none =>
    show deletePartition b1 d ++ b2 = b2
    rw [hnil, List.nil_append]
  | some rows =>
    show deletePartition (deletePartition rows d ++ b1) d ++ b2 = deletePartition rows d ++ b2
    rw [show deletePartition (deletePartition rows d ++ b1) d
        = (deletePartition rows d ++ b1).filter (fun r => decide (r.extraction_date ≠ d)) from rfl]
    rw [List.filter_append]
    rw [show (deletePartition rows d).filter (fun r => decide (r.extraction_date ≠ d))
        = deletePartition (deletePartition rows d) d from rfl]
    rw [deletePartition_idem]
    rw [show b1.filter (fun r => decide (r.extraction_date ≠ d)) = deletePartition b1 d from rfl]
    rw [hnil, List.append_nil]

/-- The partition a same-day write targets ends up holding exactly the batch. -/
theorem partitionRows_write_self (t : BronzeTable) (d : String)
    (b : List BronzeRow) (hb : ∀ r ∈ b, r.extraction_date = d) :
    partitionRows (some (writeIncremental t d b)) d = b := by
  have hbself : b.filter (fun r => decide (r.extraction_date = d)) = b :=
    List.filter_eq_self.mpr fun r hr => by simp [hb r hr]
  cases t with
  | none =>
    show b.filter (fun r => decide (r.extraction_date = d)) = b
    exact hbself
  | some rows =>
    show (deletePartition rows d ++ b).filter (fun r => decide (r.extraction_date = d)) = b
    rw [List.filter_append, hbself, filter_deletePartition]
    rw [List.filter_eq_nil_iff.mpr fun r _ => ?_, List.nil_append]
    by_cases hd : r.extraction_date = d <;> simp [hd]

/-- Any partition other than the one a write targets is untouched. -/
theorem partitionRows_write_other (t : BronzeTable) (d e : String)
    (b : List BronzeRow) (hb : ∀ r ∈ b, r.extraction_date = d) (he : e ≠ d) :
    partitionRows (some (writeIncremental t d b)) e = partitionRows t e := by
  have hbnil : b.filter (fun r => decide (r.extraction_date = e)) = [] :=
    List.filter_eq_nil_iff.mpr fun r hr => by
      simp only [hb r hr]
      simp [Ne.symm he]
  cases t with
  | none =>
    show b.filter (fun r => decide (r.extraction_date = e)) = ([] : List BronzeRow).filter _
    rw [hbnil, List.filter_nil]
  | some rows =>
    show (deletePartition rows d ++ b).filter (fun r => decide (r.extraction_date = e))
      = rows.filter (fun r => decide (r.extraction_date = e))
    rw [List.filter_append, hbnil, List.append_nil, filter_deletePartition]
    refine List.filter_congr fun r _ => ?_
    by_cases hd : r.extraction_date = e
    · have hne : r.extraction_date ≠ d := fun hcon => he (hd.symm.trans hcon)
      simp [hd, hne, he]
    · simp [hd]

/-- C1: Idempotence of incremental ingestion: re-running
`get_games_incremental` for the same date range (same fetcher, same page cap)
on the same calendar day leaves the bronze games table equal to a single
run's output — the second run's table equals the table a lone run (with the
second run's wall clock) would have produced from the original state, and the
partition for that `extraction_date` has the same row count after the re-run
as after the first run: old same-day rows are replaced, never duplicated. -/
theorem ingest_idempotent_same_day (fetch : Fetcher) (mp : Option Int)
    (fuel ts1 ts2 : Nat) (today : String) (t0 : BronzeTable)
    (r1 r2 rOnce : IngestResult)
    (h1 : get_games_incremental fetch mp fuel ts1 today t0 = some r1)
    (h2 : get_games_incremental fetch mp fuel ts2 today r1.table = some r2)
    (h3 : get_games_incremental fetch mp fuel ts2 today t0 = some rOnce) :
    r2.table = rOnce.table ∧
    (partitionRows r2.table today).length = (partitionRows r1.table today).length := by
  unfold get_games_incremental at h1 h2 h3
  cases hp : paginate fetch mp fuel 1 [] with
  | none => rw [hp] at h1; exact absurd h1 (by simp)
  | some gr =>
    obtain ⟨games, reason⟩ := gr
    rw [hp] at h1 h2 h3
    dsimp only at h1 h2 h3
    by_cases hg : games.isEmpty
    · rw [if_pos hg] at h1 h3
      have e1 := Option.some.inj h1
      subst e1
      rw [if_pos hg] at h2
      have e2 := Option.some.inj h2
      subst e2
      have e3 := Option.some.inj h3
      subst e3
      exact ⟨rfl, rfl⟩
    · rw [if_neg hg] at h1 h3
      have e1 := Option.some.inj h1
      subst e1
      rw [if_neg hg] at h2
      have e2 := Option.some.inj h2
      subst e2
      have e3 := Option.some.inj h3
      subst e3
      constructor
      · show some (writeIncremental
            (some (writeIncremental t0 today (mkBatch ts1 today games)))
            today (mkBatch ts2 today games))
          = some (writeIncremental t0 today (mkBatch ts2 today games))
        rw [writeIncremental_replaces t0 today _ _
          (mkBatch_extraction_date ts1 today games)]
      · show (partitionRows (some (writeIncremental
            (some (writeIncremental t0 today (mkBatch ts1 today games)))
            today (mkBatch ts2 today games))) today).length
          = (partitionRows (some (writeIncremental t0 today
              (mkBatch ts1 today games))) today).length
        rw [writeIncremental_replaces t0 today _ _
          (mkBatch_extraction_date ts1 today games)]
        rw [partitionRows_write_self t0 today _ (mkBatch_extraction_date ts2 today games)]
        rw [partitionRows_write_self t0 today _ (mkBatch_extraction_date ts1 today games)]
        simp [mkBatch]

/-- Witness for C1: a one-page fetch ingested twice on day `2024-01-02` over
an initially absent table; both hypotheses hold by computation and the
re-run's table equals the single run's. -/
theorem ingest_idempotent_same_day_witness :
    ∃ r1 r2 rOnce : IngestResult,
      get_games_incremental fetchOnePage Option.none 5 100 "2024-01-02" Option.none = some r1 ∧
      get_games_incremental fetchOnePage Option.none 5 200 "2024-01-02" r1.table = some r2 ∧
      get_games_incremental fetchOnePage Option.none 5 200 "2024-01-02" Option.none = some rOnce ∧
      r2.table = rOnce.table ∧
      (partitionRows r2.table "2024-01-02").length =
        (partitionRows r1.table "2024-01-02").length := by
  refine ⟨⟨some (mkBatch 100 "2024-01-02" [PyVal.int 10, PyVal.int 11]),
           IngestOutcome.written 2, StopReason.noNext⟩,
          ⟨some (mkBatch 200 "2024-01-02" [PyVal.int 10, PyVal.int 11]),
           IngestOutcome.written 2, StopReason.noNext⟩,
          ⟨some (mkBatch 200 "2024-01-02" [PyVal.int 10, PyVal.int 11]),
           IngestOutcome.written 2, StopReason.noNext⟩, rfl, rfl, rfl, ?_, ?_⟩
  · exact (ingest_idempotent_same_day fetchOnePage Option.none 5 100 200 "2024-01-02"
      Option.none _ _ _ rfl rfl rfl).1
  · exact (ingest_idempotent_same_day fetchOnePage Option.none 5 100 200 "2024-01-02"
      Option.none _ _ _ rfl rfl rfl).2

/-- C2: Partition isolation: an incremental run whose batch carries
`extraction_date = today` touches only that partition — for every other
`extraction_date` value, the rows of that partition after the run equal the
rows before it (a nonexistent table having no rows). -/
theorem ingest_partition_isolation (fetch : Fetcher) (mp : Option Int)
    (fuel ts : Nat) (today : String) (t0 : BronzeTable) (res : IngestResult)
    (e : String)
    (h : get_games_incremental fetch mp fuel ts today t0 = some res)
    (he : e ≠ today) :
    partitionRows res.table e = partitionRows t0 e := by
  unfold get_games_incremental at h
  cases hp : paginate fetch mp fuel 1 [] with
  | none => rw [hp] at h; exact absurd h (by simp)
  | some gr =>
    obtain ⟨games, reason⟩ := gr
    rw [hp] at h
    dsimp only at h
    by_cases hg : games.isEmpty
    · rw [if_pos hg] at h
      have e1 := Option.some.inj h
      subst e1
      rfl
    · rw [if_neg hg] at h
      have e1 := Option.some.inj h
      subst e1
      exact partitionRows_write_other t0 today e _
        (mkBatch_extraction_date ts today games) he

/-- Witness for C2: after ingesting on day `2024-01-02` over a table holding
one row of day `2024-01-01`, the `2024-01-01` partition is unchanged. -/
theorem ingest_partition_isolation_witness :
    ∃ res : IngestResult,
      get_games_incremental fetchOnePage Option.none 5 100 "2024-01-02"
        (some [⟨50, "2024-01-01", PyVal.int 1⟩]) = some res ∧
      partitionRows res.table "2024-01-01" =
        partitionRows (some [⟨50, "2024-01-01", PyVal.int 1⟩]) "2024-01-01" := by
  refine ⟨⟨some ((⟨50, "2024-01-01", PyVal.int 1⟩ : BronzeRow) ::
      mkBatch 100 "2024-01-02" [PyVal.int 10, PyVal.int 11]),
      IngestOutcome.written 2, StopReason.noNext⟩, rfl, ?_⟩
  exact ingest_partition_isolation fetchOnePage Option.none 5 100 "2024-01-02"
    (some [⟨50, "2024-01-01", PyVal.int 1⟩]) _ "2024-01-01" rfl (by decide)

/-- C8: Empty-range behavior: when pagination accumulates zero records, the
run performs no write (the table, existent or not, is returned untouched) and
signals the empty-result condition, a constructor distinct from every
successful-write outcome; the run returns normally rather than raising. -/
theorem ingest_empty_range (fetch : Fetcher) (mp : Option Int)
    (fuel ts : Nat) (today : String) (table : BronzeTable) (reason : StopReason)
    (h : paginate fetch mp fuel 1 [] = some ([], reason)) :
    get_games_incremental fetch mp fuel ts today table =
      some ⟨table, IngestOutcome.emptyResult, reason⟩ ∧
    ∀ n, IngestOutcome.emptyResult ≠ IngestOutcome.written n := by
  constructor
  · unfold get_games_incremental
    rw [h]
    rfl
  · intro n hcon
    exact IngestOutcome.noConfusion hcon

/-- Witness for C8: a fetcher failing on page 1 accumulates nothing; the run
leaves the one-row table untouched and signals the empty result. -/
theorem ingest_empty_range_witness :
    get_games_incremental fetchAlwaysErr Option.none 3 100 "2024-01-02"
      (some [⟨50, "2024-01-01", PyVal.int 1⟩]) =
      some ⟨some [⟨50, "2024-01-01", PyVal.int 1⟩], IngestOutcome.emptyResult,
        StopReason.fetchError⟩ ∧
    IngestOutcome.emptyResult ≠ IngestOutcome.written 0 :=
  ⟨(ingest_empty_range fetchAlwaysErr Option.none 3 100 "2024-01-02"
      (some [⟨50, "2024-01-01", PyVal.int 1⟩]) StopReason.fetchError rfl).1,
   (ingest_empty_range fetchAlwaysErr Option.none 3 100 "2024-01-02"
      (some [⟨50, "2024-01-01", PyVal.int 1⟩]) StopReason.fetchError rfl).2 0⟩


/-- A pagination step that stops has only extended the accumulator. -/
theorem paginateStep_prefix_stop (fetch : Fetcher) (mp : Option Int) (page : Nat)
    (acc acc2 : List PyVal) (r : StopReason)
    (h : paginateStep fetch mp page acc = StepResult.stop acc2 r) : acc <+: acc2 := by
  unfold paginateStep at h
  repeat' split at h
  all_goals cases h
  all_goals first
    | exact List.prefix_rfl
    | exact List.prefix_append ..

/-- A pagination step that continues has only extended the accumulator. -/
theorem paginateStep_prefix_next (fetch : Fetcher) (mp : Option Int) (page : Nat)
    (acc acc2 : List PyVal)
    (h : paginateStep fetch mp page acc = StepResult.nextPage acc2) : acc <+: acc2 := by
  unfold paginateStep at h
  repeat' split at h
  all_goals cases h
  all_goals exact List.prefix_append ..

/-- The pagination loop retains everything already accumulated: the final
record list extends the accumulator it started from. -/
theorem paginate_retains (fetch : Fetcher) (mp : Option Int) :
    ∀ fuel page acc games reason,
      paginate fetch mp fuel page acc = some (games, reason) → acc <+: games := by
  intro fuel
  induction fuel with
  | zero => intro page acc games reason h; exact absurd h (by simp [paginate])
  | succ n ih =>
    intro page acc games reason h
    unfold paginate at h
    cases hstep : paginateStep fetch mp page acc with
    | stop acc2 r =>
      rw [hstep] at h
      dsimp only at h
      have e := Option.some.inj h
      have e2 : acc2 = games := congrArg Prod.fst e
      exact e2 ▸ paginateStep_prefix_stop fetch mp page acc acc2 r hstep
    | nextPage acc2 =>
      rw [hstep] at h
      dsimp only at h
      exact (paginateStep_prefix_next fetch mp page acc acc2 hstep).trans
        (ih (page + 1) acc2 games reason h)

/-- C7: Paginator termination order and failure retention: within an
iteration the stop conditions take effect in the order (a) page cap — checked
before the fetcher is consulted, so it holds for every fetcher; (b) the
fetcher signals no (valid) page — a falsy response or one without a
`results` key; (c) the returned page is empty; (d) the fetch fails — the loop
stops, the failure is reported as the run's stop reason, and everything
already accumulated is retained: at the loop level the final record list
always extends the accumulator. -/
theorem paginator_termination_c7 (fetch : Fetcher) (mp : Option Int) (page : Nat)
    (acc : List PyVal) (r : ApiResponse) :
    (capReached mp page = true →
      paginateStep fetch mp page acc = StepResult.stop acc StopReason.pageCap) ∧
    (capReached mp page = false → fetch page = FetchOutcome.ok r →
      (r.truthy = false ∨ r.resultsKey = Option.none) →
      paginateStep fetch mp page acc = StepResult.stop acc StopReason.invalidResponse) ∧
    (capReached mp page = false → fetch page = FetchOutcome.ok r → r.truthy = true →
      r.resultsKey = some [] →
      paginateStep fetch mp page acc = StepResult.stop acc StopReason.emptyPage) ∧
    (capReached mp page = false → fetch page = FetchOutcome.err →
      paginateStep fetch mp page acc = StepResult.stop acc StopReason.fetchError) ∧
    (∀ fuel games reason, paginate fetch mp fuel page acc = some (games, reason) →
      acc <+: games) := by
  refine ⟨?_, ?_, ?_, ?_, fun fuel => paginate_retains fetch mp fuel page acc⟩
  · intro hcap
    simp [paginateStep, hcap]
  · intro hcap hf hbad
    rcases hbad with ht | hres
    · simp [paginateStep, hcap, hf, ht]
    · by_cases ht : r.truthy
      · simp [paginateStep, hcap, hf, ht, hres]
      · simp [paginateStep, hcap, hf, ht]
  · intro hcap hf ht hres
    simp [paginateStep, hcap, hf, ht, hres]
  · intro hcap hf
    simp [paginateStep, hcap, hf]

/-- Witness for C7: each stop condition exercised at a concrete page and
fetcher, and loop-level retention across a mid-pagination failure. -/
theorem paginator_termination_c7_witness :
    paginateStep fetchAlwaysErr (some 2) 3 [PyVal.int 7] =
      StepResult.stop [PyVal.int 7] StopReason.pageCap ∧
    paginateStep (fun _ => FetchOutcome.ok ⟨false, Option.none, false⟩)
      Option.none 1 [] = StepResult.stop [] StopReason.invalidResponse ∧
    paginateStep (fun _ => FetchOutcome.ok ⟨true, some [], false⟩)
      Option.none 1 [] = StepResult.stop [] StopReason.emptyPage ∧
    paginateStep fetchAlwaysErr Option.none 2 [PyVal.int 10, PyVal.int 11] =
      StepResult.stop [PyVal.int 10, PyVal.int 11] StopReason.fetchError ∧
    [PyVal.int 10, PyVal.int 11] <+: [PyVal.int 10, PyVal.int 11] :=
  ⟨(paginator_termination_c7 fetchAlwaysErr (some 2) 3 [PyVal.int 7]
      ⟨false, Option.none, false⟩).1 rfl,
   (paginator_termination_c7 (fun _ => FetchOutcome.ok ⟨false, Option.none, false⟩)
      Option.none 1 [] ⟨false, Option.none, false⟩).2.1 rfl rfl (Or.inl rfl),
   (paginator_termination_c7 (fun _ => FetchOutcome.ok ⟨true, some [], false⟩)
      Option.none 1 [] ⟨true, some [], false⟩).2.2.1 rfl rfl rfl rfl,
   (paginator_termination_c7 fetchAlwaysErr Option.none 2
      [PyVal.int 10, PyVal.int 11] ⟨false, Option.none, false⟩).2.2.2.1 rfl rfl,
   (paginator_termination_c7 fetchThenErr Option.none 2
      [PyVal.int 10, PyVal.int 11] ⟨false, Option.none, false⟩).2.2.2.2 5
      [PyVal.int 10, PyVal.int 11] StopReason.fetchError rfl⟩

/-- C10: Full-load error atomicity: when the genres fetch raises, or the
response is falsy or lacks a `results` key, `get_genres_full` returns before
constructing or writing any frame — the genres table (existent or not) is
exactly its prior state and the outcome names the error path, never a
write. -/
theorem genres_full_error_atomic (t : Option ColFrame) (r : GenresResponse) :
    get_genres_full GenresFetchOutcome.err t = (t, GenresOutcome.fetchError) ∧
    ((r.truthy = false ∨ r.resultsKey = Option.none) →
      get_genres_full (GenresFetchOutcome.ok r) t = (t, GenresOutcome.invalidResponse)) := by
  constructor
  · rfl
  · intro hbad
    rcases hbad with ht | hres
    · simp [get_genres_full, ht]
    · by_cases ht : r.truthy
      · simp [get_genres_full, ht, hres]
      · simp [get_genres_full, ht]

/-- Witness for C10: a raising fetch and a falsy response both leave a
concrete one-column genres table untouched. -/
theorem genres_full_error_atomic_witness :
    get_genres_full GenresFetchOutcome.err (some genresFrameExample) =
      (some genresFrameExample, GenresOutcome.fetchError) ∧
    get_genres_full (GenresFetchOutcome.ok ⟨false, Option.none⟩)
      (some genresFrameExample) =
      (some genresFrameExample, GenresOutcome.invalidResponse) :=
  ⟨(genres_full_error_atomic (some genresFrameExample) ⟨false, Option.none⟩).1,
   (genres_full_error_atomic (some genresFrameExample) ⟨false, Option.none⟩).2
     (Or.inl rfl)⟩

/-- C9: Fail-fast configuration validation: `Config.validate` raises exactly
the source's `ValueError` message when the API key is absent (falsy), and the
orchestrated run (modelled from the spec, which validates before first use)
propagates that error — it never reaches the pipeline body, so no API call is
issued, whatever the body would have done. -/
theorem config_fail_fast (c : Config)
    (h : pyFalsyStr c.RAWG_API_KEY = true) :
    Config.validate c =
      Except.error "RAWG_API_KEY is not set in environment or .env file." ∧
    ∀ body : RawgApiClient → Nat,
      runPipeline c body =
        Except.error "RAWG_API_KEY is not set in environment or .env file." := by
  have hv : Config.validate c =
      Except.error "RAWG_API_KEY is not set in environment or .env file." := by
    simp [Config.validate, h]
  exact ⟨hv, fun body => by simp [runPipeline, hv]⟩

/-- Witness for C9: the unset-key configuration fails validation and the run
aborts before a body that would issue one API call. -/
theorem config_fail_fast_witness :
    Config.validate ⟨Option.none⟩ =
      Except.error "RAWG_API_KEY is not set in environment or .env file." ∧
    runPipeline ⟨Option.none⟩ (fun _ => 1) =
      Except.error "RAWG_API_KEY is not set in environment or .env file." :=
  ⟨(config_fail_fast ⟨Option.none⟩ rfl).1,
   (config_fail_fast ⟨Option.none⟩ rfl).2 (fun _ => 1)⟩

/-- C6: All-null column handling: a column whose every cell is null takes the
normalizer's first branch — it is coerced by `astype(str)` into a
string-dtype column (each null stringified), a storable string column rather
than one left to incompatible type inference; the result is string-typed,
never a failure. -/
theorem allnull_column_string_typed (name : String) (col : List PyVal)
    (h : col.all isNullCell = true) :
    normalizeColumn name col = NormalizedColumn.allNullStr (col.map pyStr) ∧
    (normalizeColumn name col).isStringTyped = true := by
  have hn : normalizeColumn name col = NormalizedColumn.allNullStr (col.map pyStr) := by
    simp [normalizeColumn, h]
  exact ⟨hn, by rw [hn]; rfl⟩

/-- Witness for C6: a two-row all-null column becomes the string column
`["None", "None"]`. -/
theorem allnull_column_string_typed_witness :
    allNullColExample.all isNullCell = true ∧
    normalizeColumn "metacritic" allNullColExample =
      NormalizedColumn.allNullStr ["None", "None"] ∧
    (normalizeColumn "metacritic" allNullColExample).isStringTyped = true :=
  ⟨rfl, (allnull_column_string_typed "metacritic" allNullColExample rfl).1,
   (allnull_column_string_typed "metacritic" allNullColExample rfl).2⟩

/-- C5: Normalization round-trip: wherever the `genres` column holds the
payload `[{"name":"Action"},{"name":"RPG"}]`, the normalizer takes the
structured branch and stores at that position exactly the canonical JSON text
of that list; null `genres` cells stay null (never the literal string
`"None"`); and the transformer's genre parsing applied to the stored text
yields `primary_genre = "Action"`. -/
theorem genres_normalization_roundtrip (col : List PyVal) (i : Nat)
    (h : col[i]? = some rawGenres) :
    ∃ out : List PyVal, normalizeColumn "genres" col = NormalizedColumn.serialized out ∧
      out[i]? = some (PyVal.str genresCanonicalText) ∧
      genresCanonicalText = dumps rawGenres ∧
      (∀ j : Nat, col[j]? = some PyVal.none → out[j]? = some PyVal.none) ∧
      primary_genre (extract_genre_names (some genresCanonicalText)) =
        PyVal.str "Action" := by
  have hmem : rawGenres ∈ col := List.getElem?_mem h
  have hnotall : col.all isNullCell = false := by
    by_contra hcon
    rw [Bool.not_eq_false] at hcon
    have hx := List.all_eq_true.mp hcon rawGenres hmem
    simp [rawGenres, isNullCell] at hx
  have hcomplex : isComplexCol "genres" col = true := by
    simp [isComplexCol, complex_cols]
  refine ⟨serializeComplexColumn col, ?_, ?_, rfl, ?_, rfl⟩
  · simp [normalizeColumn, hnotall, hcomplex]
  · simp only [serializeComplexColumn, List.getElem?_map, h, Option.map_some']
    rfl
  · intro j hj
    simp only [serializeComplexColumn, List.getElem?_map, hj, Option.map_some']
    rfl

/-- Witness for C5: the concrete column `[payload, null]`: position 0 stores
the canonical text, position 1 stays null, and parsing recovers `"Action"`. -/
theorem genres_normalization_roundtrip_witness :
    genresColExample[0]? = some rawGenres ∧
    ∃ out : List PyVal, normalizeColumn "genres" genresColExample =
        NormalizedColumn.serialized out ∧
      out[0]? = some (PyVal.str genresCanonicalText) ∧
      genresCanonicalText = dumps rawGenres ∧
      (∀ j : Nat, genresColExample[j]? = some PyVal.none → out[j]? = some PyVal.none) ∧
      primary_genre (extract_genre_names (some genresCanonicalText)) =
        PyVal.str "Action" :=
  ⟨rfl, genres_normalization_roundtrip genresColExample 0 rfl⟩

/-- Dropping duplicates keeping the last occurrence reduces each key class to
its last element. -/
theorem filter_dropDupKeepLast (k : Int × String) :
    ∀ l : List BronzeGame,
      (dropDupKeepLast l).filter (fun r => decide (dedupKey r = k)) =
        (l.filter (fun r => decide (dedupKey r = k))).getLast?.toList := by
  intro l
  induction l with
  | nil => rfl
  | cons x xs ih =>
    by_cases hany : xs.any (fun y => decide (dedupKey y = dedupKey x))
    · rw [show dropDupKeepLast (x :: xs) = dropDupKeepLast xs by
        simp [dropDupKeepLast, hany]]
      by_cases hk : dedupKey x = k
      · have hne : xs.filter (fun r => decide (dedupKey r = k)) ≠ [] := by
          obtain ⟨y, hy, hyk⟩ := List.any_eq_true.mp hany
          refine List.ne_nil_of_mem (a := y) ?_
          simp only [List.mem_filter, hy, true_and]
          simp only [decide_eq_true_eq] at hyk ⊢
          exact hyk.trans hk
        rw [ih]
        rw [show (x :: xs).filter (fun r => decide (dedupKey r = k)) =
            x :: xs.filter (fun r => decide (dedupKey r = k)) by simp [List.filter, hk]]
        cases hfx : xs.filter (fun r => decide (dedupKey r = k)) with
        | nil => exact absurd hfx hne
        | cons b t => rw [List.getLast?_cons_cons]
      · rw [ih]
        rw [show (x :: xs).filter (fun r => decide (dedupKey r = k)) =
            xs.filter (fun r => decide (dedupKey r = k)) by simp [List.filter, hk]]
    · rw [show dropDupKeepLast (x :: xs) = x :: dropDupKeepLast xs by
        simp [dropDupKeepLast, hany]]
      by_cases hk : dedupKey x = k
      · have hnil : xs.filter (fun r => decide (dedupKey r = k)) = [] := by
          refine List.filter_eq_nil_iff.mpr fun y hy => ?_
          intro hcon
          simp only [decide_eq_true_eq] at hcon
          refine hany (List.any_eq_true.mpr ⟨y, hy, ?_⟩)
          simp only [decide_eq_true_eq]
          exact hcon.trans hk.symm
        rw [show (x :: dropDupKeepLast xs).filter (fun r => decide (dedupKey r = k)) =
            x :: (dropDupKeepLast xs).filter (fun r => decide (dedupKey r = k)) by
          simp [List.filter, hk]]
        rw [ih, hnil]
        rw [show (x :: xs).filter (fun r => decide (dedupKey r = k)) =
            x :: xs.filter (fun r => decide (dedupKey r = k)) by simp [List.filter, hk]]
        rw [hnil]
        rfl
      · rw [show (x :: dropDupKeepLast xs).filter (fun r => decide (dedupKey r = k)) =
            (dropDupKeepLast xs).filter (fun r => decide (dedupKey r = k)) by
          simp [List.filter, hk]]
        rw [ih]
        rw [show (x :: xs).filter (fun r => decide (dedupKey r = k)) =
            xs.filter (fun r => decide (dedupKey r = k)) by simp [List.filter, hk]]

/-- C3 counterexample: on the input `[dupRowA, dupRowB]` — two rows sharing
one (id, extraction_date) key, `dupRowB` appended last — the reversed list is
a permitted `sort_values` output (a permutation of the input, sorted on the
key; the default quicksort gives no stability guarantee on ties), and
`drop_duplicates(keep='last')` on it keeps `dupRowA`: the resolved row is NOT
the most recently appended input, refuting the claim's identification of the
last-sorted row with the last-appended one. -/
theorem dedup_tie_counterexample :
    sortValuesOutput [dupRowA, dupRowB] [dupRowB, dupRowA] ∧
    dropDupKeepLast [dupRowB, dupRowA] = [dupRowA] ∧
    dropDupKeepLast [dupRowB, dupRowA] ≠ [dupRowB] := by
  refine ⟨⟨List.Perm.swap dupRowB dupRowA [], by decide⟩, rfl, ?_⟩
  intro h
  rw [show dropDupKeepLast [dupRowB, dupRowA] = [dupRowA] from rfl] at h
  injection h with h1 h2
  have h3 : PyVal.int 1 = PyVal.int 2 := congrArg BronzeGame.attrs h1
  injection h3 with h4
  exact absurd h4 (by decide)

/-- C3 (amended): for every permitted output of the ascending
`extraction_date` sort (any key-sorted permutation — the relative order of
same-date ties is implementation-defined under the default quicksort), the
dedup retains, per (entity id, extraction_date) key, exactly the last-sorted
row of that key class: each occurring key yields exactly one output row; it
equals the most recently appended input row exactly when the sort preserved
that key class's appended order (as a stable sort kind would guarantee). -/
theorem dedup_keeps_last_sorted (xs ys : List BronzeGame)
    (h : sortValuesOutput xs ys) (k : Int × String) :
    (dropDupKeepLast ys).filter (fun r => decide (dedupKey r = k)) =
      (ys.filter (fun r => decide (dedupKey r = k))).getLast?.toList ∧
    (ys.filter (fun r => decide (dedupKey r = k)) =
        xs.filter (fun r => decide (dedupKey r = k)) →
      (dropDupKeepLast ys).filter (fun r => decide (dedupKey r = k)) =
        (xs.filter (fun r => decide (dedupKey r = k))).getLast?.toList) ∧
    (xs.filter (fun r => decide (dedupKey r = k)) ≠ [] ↔
      ((dropDupKeepLast ys).filter (fun r => decide (dedupKey r = k))).length = 1) := by
  obtain ⟨hperm, -⟩ := h
  have hfp := hperm.filter (fun r => decide (dedupKey r = k))
  refine ⟨filter_dropDupKeepLast k ys,
    fun hpres => by rw [filter_dropDupKeepLast k ys, hpres], ?_⟩
  rw [filter_dropDupKeepLast k ys]
  constructor
  · intro hne
    have h0 : (xs.filter (fun r => decide (dedupKey r = k))).length ≠ 0 := by
      intro h0
      exact hne (List.length_eq_zero.mp h0)
    have hyne : ys.filter (fun r => decide (dedupKey r = k)) ≠ [] := by
      intro hnil
      apply h0
      rw [hfp.length_eq, hnil]
      rfl
    rw [List.getLast?_eq_getLast _ hyne]
    rfl
  · intro hlen hnil
    have hynil : ys.filter (fun r => decide (dedupKey r = k)) = [] := by
      apply List.length_eq_zero.mp
      rw [← hfp.length_eq, hnil]
      rfl
    rw [hynil] at hlen
    exact absurd hlen (by simp)

/-- Witness for the amended C3: the identity permutation of the two same-key
rows is itself a permitted sort output (equal dates), and the dedup keeps
exactly the last-sorted row of the key class. -/
theorem dedup_keeps_last_sorted_witness :
    sortValuesOutput [dupRowA, dupRowB] [dupRowA, dupRowB] ∧
    (dropDupKeepLast [dupRowA, dupRowB]).filter
        (fun r => decide (dedupKey r = ((7 : Int), "2024-01-01"))) =
      (([dupRowA, dupRowB] : List BronzeGame).filter
        (fun r => decide (dedupKey r = ((7 : Int), "2024-01-01")))).getLast?.toList := by
  have hs : sortValuesOutput [dupRowA, dupRowB] [dupRowA, dupRowB] :=
    ⟨List.Perm.refl _, by decide⟩
  exact ⟨hs, (dedup_keeps_last_sorted [dupRowA, dupRowB] [dupRowA, dupRowB] hs
    ((7 : Int), "2024-01-01")).1⟩

/-- C4: Aggregation correctness: every analytics output row aggregates its
nonempty (year, genre) group of exploded, dropna-surviving observations —
`avg_rating` is the mean of the group's ratings and `game_count` its row
count; every surviving observation's key appears in the output; the output is
sorted by released year descending then game count descending; and on the
claim's example rows the output is `(2020, "Action", 4.5, 2)` followed by
`(2020, "RPG", 3.0, 1)`. -/
theorem aggregation_correctness_c4 :
    (∀ (rows : List RefinedRow) (a : AnalyticsRow),
      a ∈ games_analytics rows →
        obsGroup (dropnaObs (rows.flatMap explodeGenres))
            (a.released_year, a.genre) ≠ [] ∧
        a.avg_rating =
          ((obsGroup (dropnaObs (rows.flatMap explodeGenres))
              (a.released_year, a.genre)).map fun o => o.rating).sum /
            ((obsGroup (dropnaObs (rows.flatMap explodeGenres))
              (a.released_year, a.genre)).length : ℚ) ∧
        a.game_count =
          (obsGroup (dropnaObs (rows.flatMap explodeGenres))
            (a.released_year, a.genre)).length) ∧
    (∀ (rows : List RefinedRow) (o : GenreObs),
      o ∈ dropnaObs (rows.flatMap explodeGenres) →
      ∃ a ∈ games_analytics rows,
        a.released_year = o.released_year ∧ a.genre = o.genre) ∧
    (∀ rows : List RefinedRow, List.Sorted analyticsOrder (games_analytics rows)) ∧
    games_analytics c4rows = [⟨2020, "Action", 9/2, 2⟩, ⟨2020, "RPG", 3, 1⟩] := by
  refine ⟨?_, ?_, ?_, ?_⟩
  · intro rows a ha
    unfold games_analytics at ha
    rw [List.mem_insertionSort] at ha
    unfold groupbyAgg at ha
    rw [List.mem_map] at ha
    obtain ⟨k, hk, rfl⟩ := ha
    rw [List.mem_insertionSort, List.mem_dedup, List.mem_map] at hk
    obtain ⟨o, ho, hko⟩ := hk
    subst hko
    refine ⟨?_, rfl, rfl⟩
    refine List.ne_nil_of_mem (a := o) ?_
    simp only [obsGroup, List.mem_filter]
    exact ⟨ho, by simp⟩
  · intro rows o ho
    refine ⟨⟨o.released_year, o.genre,
      ((obsGroup (dropnaObs (rows.flatMap explodeGenres))
          (o.released_year, o.genre)).map fun x => x.rating).sum /
        ((obsGroup (dropnaObs (rows.flatMap explodeGenres))
          (o.released_year, o.genre)).length : ℚ),
      (obsGroup (dropnaObs (rows.flatMap explodeGenres))
        (o.released_year, o.genre)).length⟩, ?_, rfl, rfl⟩
    unfold games_analytics
    rw [List.mem_insertionSort]
    unfold groupbyAgg
    rw [List.mem_map]
    refine ⟨(o.released_year, o.genre), ?_, rfl⟩
    rw [List.mem_insertionSort, List.mem_dedup, List.mem_map]
    exact ⟨o, ho, rfl⟩
  · intro rows
    exact List.sorted_insertionSort analyticsOrder _
  · simp [games_analytics, groupbyAgg, dropnaObs, explodeGenres, obsGroup, c4rows,
      List.insertionSort, List.orderedInsert, List.dedup, List.filterMap, List.filter,
      List.flatMap, keyLe, analyticsOrder, pyStrLe, lexLe, AnalyticsRow.mk.injEq]
    norm_num

/-- Witness for C4: the characterization instantiated at the example's
"Action" output row, whose membership hypothesis holds by computation. -/
theorem aggregation_correctness_c4_witness :
    (⟨2020, "Action", 9/2, 2⟩ : AnalyticsRow) ∈ games_analytics c4rows ∧
    obsGroup (dropnaObs (c4rows.flatMap explodeGenres)) (2020, "Action") ≠ [] ∧
    ((9 : ℚ)/2) =
      ((obsGroup (dropnaObs (c4rows.flatMap explodeGenres)) (2020, "Action")).map
        fun o => o.rating).sum /
      ((obsGroup (dropnaObs (c4rows.flatMap explodeGenres)) (2020, "Action")).length : ℚ) ∧
    2 = (obsGroup (dropnaObs (c4rows.flatMap explodeGenres)) (2020, "Action")).length := by
  have hmem : (⟨2020, "Action", 9/2, 2⟩ : AnalyticsRow) ∈ games_analytics c4rows := by
    rw [aggregation_correctness_c4.2.2.2]
    exact List.mem_cons_self ..
  obtain ⟨h1, h2, h3⟩ := aggregation_correctness_c4.1 c4rows ⟨2020, "Action", 9/2, 2⟩ hmem
  exact ⟨hmem, h1, h2, h3⟩
